import Mathlib

/-!
Verification of the StudyBuddy memory core against its specification.

The scheduler, mastery updater and priority scorer of the repository are
embedded shallowly: Python numbers are modelled as exact rationals (or reals
where `math.exp` / `np.exp` is involved), `int(x)` as truncation toward zero,
`x or d` as Python truthiness coalescing, and the Neo4j store as an
association list from concept id to a record of optional fields.
Timestamps are measured in days.
-/

namespace StudyBuddy

/-- Python `int(x)` truncates toward zero. -/
def pyInt (q : ℚ) : ℤ := if 0 ≤ q then ⌊q⌋ else ⌈q⌉

/-- The four memory fields read and rewritten by
`MemoryService.record_review` (src/services/memory_service.py),
after the `or`-coalescing of missing fields. -/
structure SchedState where
  interval : ℤ
  ease_factor : ℚ
  review_count : ℕ
  difficulty : ℚ
  deriving DecidableEq

/-- The pure core of `MemoryService.record_review`: the modified SM-2
transition on (interval, ease_factor, review_count, difficulty) for a
quality rating.  Qualities 0, 1, 2 are matched explicitly; everything
else falls into the `else` ("lätt") branch, exactly as the Python
`if/elif/elif/else` chain does. -/
def recordReviewStep (quality : ℤ) (s : SchedState) : SchedState :=
  let review_count := s.review_count + 1
  if quality = 0 then
    { interval := 1
      ease_factor := max (13/10) (s.ease_factor - 3/10)
      review_count := review_count
      difficulty := min (9/10) (s.difficulty + 1/10) }
  else if quality = 1 then
    { interval := max 1 (pyInt ((s.interval : ℚ) * (6/10)))
      ease_factor := max (13/10) (s.ease_factor - 15/100)
      review_count := review_count
      difficulty := min (9/10) (s.difficulty + 5/100) }
  else if quality = 2 then
    { interval := pyInt ((s.interval : ℚ) * s.ease_factor)
      ease_factor := s.ease_factor
      review_count := review_count
      difficulty := s.difficulty }
  else
    { interval := pyInt ((s.interval : ℚ) * s.ease_factor * (13/10))
      ease_factor := min (28/10) (s.ease_factor + 1/10)
      review_count := review_count
      difficulty := max (1/10) (s.difficulty - 5/100) }

/-- The spec's transition table, written with mathematical floor
(`⌊·⌋`) exactly as the spec states it, to be compared with
`recordReviewStep`. -/
def specTransition (quality : ℤ) (s : SchedState) : SchedState :=
  if quality = 0 then
    { interval := 1
      ease_factor := max (13/10) (s.ease_factor - 3/10)
      review_count := s.review_count + 1
      difficulty := min (9/10) (s.difficulty + 1/10) }
  else if quality = 1 then
    { interval := max 1 ⌊(s.interval : ℚ) * (6/10)⌋
      ease_factor := max (13/10) (s.ease_factor - 15/100)
      review_count := s.review_count + 1
      difficulty := min (9/10) (s.difficulty + 5/100) }
  else if quality = 2 then
    { interval := ⌊(s.interval : ℚ) * s.ease_factor⌋
      ease_factor := s.ease_factor
      review_count := s.review_count + 1
      difficulty := s.difficulty }
  else
    { interval := ⌊(s.interval : ℚ) * s.ease_factor * (13/10)⌋
      ease_factor := min (28/10) (s.ease_factor + 1/10)
      review_count := s.review_count + 1
      difficulty := max (1/10) (s.difficulty - 5/100) }

/-- Folding a sequence of quality ratings through the scheduler. -/
def recordReviewSeq (qs : List ℤ) (s : SchedState) : SchedState :=
  qs.foldl (fun t q => recordReviewStep q t) s

/-- The documented bounds on a scheduler state. -/
def SchedInv (s : SchedState) : Prop :=
  1 ≤ s.interval ∧ 13/10 ≤ s.ease_factor ∧ s.ease_factor ≤ 28/10 ∧
    1/10 ≤ s.difficulty ∧ s.difficulty ≤ 9/10

instance (s : SchedState) : Decidable (SchedInv s) := by
  unfold SchedInv; infer_instance

lemma pyInt_of_nonneg {q : ℚ} (h : 0 ≤ q) : pyInt q = ⌊q⌋ := by
  simp [pyInt, h]

/-- A stored `Koncept` node, restricted to the fields touched by
`record_review`.  Every field is nullable in the graph store.
Timestamps (`last_review`, `next_review`) are rationals measured in days. -/
structure Koncept where
  interval : Option ℤ
  ease_factor : Option ℚ
  review_count : Option ℕ
  difficulty : Option ℚ
  last_review : Option ℚ
  next_review : Option ℚ
  retention : Option ℝ
  last_quality : Option ℤ

/-- Python's `x or d` on a nullable rational: `None` and `0` are falsy. -/
def pyOrQ (x : Option ℚ) (d : ℚ) : ℚ :=
  match x with
  | none => d
  | some v => if v = 0 then d else v

/-- Python's `x or d` on a nullable integer. -/
def pyOrZ (x : Option ℤ) (d : ℤ) : ℤ :=
  match x with
  | none => d
  | some v => if v = 0 then d else v

/-- Python's `x or d` on a nullable count. -/
def pyOrN (x : Option ℕ) (d : ℕ) : ℕ :=
  match x with
  | none => d
  | some v => if v = 0 then d else v

/-- The `or`-coalescing `record_review` applies to the fetched record:
`interval or 1`, `ease_factor or 2.5`, `review_count or 0`,
`difficulty or 0.3`. -/
def coalesceState (c : Koncept) : SchedState :=
  { interval := pyOrZ c.interval 1
    ease_factor := pyOrQ c.ease_factor (5/2)
    review_count := pyOrN c.review_count 0
    difficulty := pyOrQ c.difficulty (3/10) }

/-- The concept record written back by `record_review`'s `SET` clause,
given the review instant `now` (both `datetime.now()` calls of the body
are modelled as the same instant, the embedding being atomic) and the
effective forgetting factor `ff`.  `retention` is
`_calculate_retention(interval', ff) = exp(-ff * interval')`, computed
after the transition; `next_review = now + interval'` days. -/
noncomputable def reviewedKoncept (now : ℚ) (ff : ℝ) (quality : ℤ)
    (c : Koncept) : Koncept :=
  let s := recordReviewStep quality (coalesceState c)
  { interval := some s.interval
    ease_factor := some s.ease_factor
    review_count := some s.review_count
    difficulty := some s.difficulty
    last_review := some now
    next_review := some (now + (s.interval : ℚ))
    retention := some (Real.exp (-(ff * (s.interval : ℝ))))
    last_quality := some quality }

/-- Replace the first binding of `cid` in the store. -/
def setKoncept (cid : String) (c : Koncept) :
    List (String × Koncept) → List (String × Koncept)
  | [] => []
  | (k, v) :: rest =>
      if k = cid then (k, c) :: rest else (k, v) :: setKoncept cid c rest

/-- `MemoryService.record_review` at store level: fetch the concept by
id; when the lookup returns no record the method returns with no write;
otherwise the transition is applied and the record rewritten.
`ff_profile` is the user profile's `forgetting_factor`; missing profile
values are filled with the default 0.3 (`get_user_profile`). -/
noncomputable def recordReviewDb (now : ℚ) (ff_profile : Option ℝ)
    (db : List (String × Koncept)) (concept_id : String) (quality : ℤ) :
    List (String × Koncept) :=
  match List.lookup concept_id db with
  | none => db
  | some c =>
      setKoncept concept_id
        (reviewedKoncept now (ff_profile.getD (3/10)) quality c) db

/-- `update_mastery_score` (src/pages/study.py, identically
src/pages/study_old.py): exponentially weighted moving average of the
mastery score.  Returns `(current_score, updated_score)` as the Python
function does. -/
def update_mastery_score (current_score new_score learning_rate : ℚ) :
    ℚ × ℚ :=
  let updated_score :=
    (1 - learning_rate) * current_score + learning_rate * new_score
  (current_score, updated_score)

/-- Input to `calculate_concept_score` (src/pages/smart_training.py),
after the coalescing done by `get_all_concepts_with_memory_data`
(`mastery_score or 0`, `retention or 1.0`, `difficulty or 0.3`).
`elapsed_days` is `(now - last_review).total_seconds()/86400`, a
fractional number of days, `none` when the concept was never reviewed.
`confusion_counts` are the `FÖRVÄXLAS_MED` relation counts (a null
count is modelled as 0; Python's `or 1` treats null and 0 alike);
`dependencies` the names of dependent concepts. -/
structure ConceptData where
  mastery_score : ℝ
  retention : ℝ
  difficulty : ℝ
  elapsed_days : Option ℝ
  confusion_counts : List ℕ
  dependencies : List String

/-- The breakdown dict built by `calculate_concept_score` (the
`reason` string, pure presentation text, is omitted). -/
structure ScoreDetails where
  total_score : ℝ
  recall_improvement : ℝ
  current_retention : ℝ
  training_effect : ℝ
  failure_risk : ℝ
  success_probability : ℝ
  estimated_time : ℝ

/-- `calculate_concept_score`: score and breakdown for one concept. -/
noncomputable def calculate_concept_score (c : ConceptData) :
    ℝ × ScoreDetails :=
  let time_since_review : ℝ := c.elapsed_days.getD 30
  let current_retention :=
    c.retention * Real.exp (-(time_since_review / (c.retention * 10)))
  let recall_improvement := max 0 (9/10 - current_retention)
  let discrimination_bonus :=
    (c.confusion_counts.map
      (fun (n : ℕ) => (if n = 0 then 1 else (n : ℝ)) * (1/10))).sum
  let success_probability :=
    c.mastery_score * (1 - c.difficulty) + 3/10
  let failure_risk :=
    if success_probability < 6/10 then (6/10 - success_probability) * 2
    else 0
  let estimated_time := 5 + c.difficulty * 10
  let raw := (recall_improvement + discrimination_bonus - failure_risk) /
    (estimated_time / 60)
  let total_score := raw + (c.dependencies.length : ℝ) * (5/100)
  (total_score,
    { total_score := total_score
      recall_improvement := recall_improvement
      current_retention := current_retention
      training_effect := discrimination_bonus
      failure_risk := failure_risk
      success_probability := success_probability
      estimated_time := estimated_time })

/-- The spec's 10-step total-score formula, with
`days_since_review = (now - last_review).days` — whole days, the floor
of the fractional elapsed time — exactly as the spec words it.  Spec
side of the refinement, to be compared with
`calculate_concept_score`. -/
noncomputable def specTotalScoreWholeDays (c : ConceptData) : ℝ :=
  let days_since_review : ℝ :=
    match c.elapsed_days with
    | none => 30
    | some t => (⌊t⌋ : ℤ)
  (max 0 (9/10 -
      c.retention * Real.exp (-(days_since_review / (c.retention * 10))))
    + (1/10) * ((c.confusion_counts.map (fun (n : ℕ) => (n : ℝ))).sum)
    - max 0 ((6/10 - (c.mastery_score * (1 - c.difficulty) + 3/10)) * 2))
    / ((5 + c.difficulty * 10) / 60)
    + (5/100) * (c.dependencies.length : ℝ)

/-- The same formula with the exact fractional elapsed days the code
uses (amended spec side). -/
noncomputable def specTotalScoreFracDays (c : ConceptData) : ℝ :=
  let days_since_review : ℝ := c.elapsed_days.getD 30
  (max 0 (9/10 -
      c.retention * Real.exp (-(days_since_review / (c.retention * 10))))
    + (1/10) * ((c.confusion_counts.map (fun (n : ℕ) => (n : ℝ))).sum)
    - max 0 ((6/10 - (c.mastery_score * (1 - c.difficulty) + 3/10)) * 2))
    / ((5 + c.difficulty * 10) / 60)
    + (5/100) * (c.dependencies.length : ℝ)

/-- The loop body of `find_optimal_concept`: keep the running best and
its score, replacing it whenever a strictly larger score appears. -/
noncomputable def selectBest (best : ConceptData) (best_score : ℝ) :
    List ConceptData → ConceptData
  | [] => best
  | c :: rest =>
      if best_score < (calculate_concept_score c).1 then
        selectBest c (calculate_concept_score c).1 rest
      else selectBest best best_score rest

/-- `find_optimal_concept`: argmax of `calculate_concept_score` over
ALL fetched concepts.  The Python loop starts from
`best_score = -inf`, so the first concept always becomes the initial
best; an empty fetch returns `(None, {})`. -/
noncomputable def find_optimal_concept (cs : List ConceptData) :
    Option ConceptData :=
  match cs with
  | [] => none
  | c :: rest => some (selectBest c (calculate_concept_score c).1 rest)

section SchedulerProofs

lemma one_le_floor_mul_ease {i : ℤ} {e : ℚ} (hi : 1 ≤ i) (he : 13/10 ≤ e) :
    1 ≤ ⌊(i : ℚ) * e⌋ := by
  have hi' : (1 : ℚ) ≤ (i : ℚ) := by exact_mod_cast hi
  rw [Int.le_floor]
  push_cast
  nlinarith

lemma one_le_floor_mul_ease13 {i : ℤ} {e : ℚ} (hi : 1 ≤ i)
    (he : 13/10 ≤ e) : 1 ≤ ⌊(i : ℚ) * e * (13/10)⌋ := by
  have hi' : (1 : ℚ) ≤ (i : ℚ) := by exact_mod_cast hi
  rw [Int.le_floor]
  push_cast
  nlinarith

lemma mul_ease_nonneg {i : ℤ} {e : ℚ} (hi : 1 ≤ i) (he : 13/10 ≤ e) :
    (0 : ℚ) ≤ (i : ℚ) * e := by
  have hi' : (1 : ℚ) ≤ (i : ℚ) := by exact_mod_cast hi
  nlinarith

lemma mul_ease13_nonneg {i : ℤ} {e : ℚ} (hi : 1 ≤ i) (he : 13/10 ≤ e) :
    (0 : ℚ) ≤ (i : ℚ) * e * (13/10) := by
  have := mul_ease_nonneg hi he
  nlinarith

lemma mul_six_tenths_nonneg {i : ℤ} (hi : 1 ≤ i) :
    (0 : ℚ) ≤ (i : ℚ) * (6/10) := by
  have hi' : (1 : ℚ) ≤ (i : ℚ) := by exact_mod_cast hi
  nlinarith

/-- C1: on every in-bounds state, each quality in {0,1,2,3} produces
exactly the spec table's transition (interval, ease_factor, difficulty
rows, and `review_count' = review_count + 1` in all four cases). -/
theorem record_review_matches_spec_table (s : SchedState) (q : ℤ)
    (hs : SchedInv s) (hq : q = 0 ∨ q = 1 ∨ q = 2 ∨ q = 3) :
    recordReviewStep q s = specTransition q s := by
  obtain ⟨hi, he1, he2, hd1, hd2⟩ := hs
  rcases hq with h | h | h | h <;> subst h <;>
    simp [recordReviewStep, specTransition,
      pyInt_of_nonneg (mul_six_tenths_nonneg hi),
      pyInt_of_nonneg (mul_ease_nonneg hi he1),
      pyInt_of_nonneg (mul_ease13_nonneg hi he1)]

theorem record_review_matches_spec_table_witness :
    SchedInv ⟨1, 5/2, 0, 3/10⟩ ∧
      ((2 : ℤ) = 0 ∨ (2 : ℤ) = 1 ∨ (2 : ℤ) = 2 ∨ (2 : ℤ) = 3) ∧
      recordReviewStep 2 ⟨1, 5/2, 0, 3/10⟩ =
        specTransition 2 ⟨1, 5/2, 0, 3/10⟩ :=
  ⟨by norm_num [SchedInv], by decide,
    record_review_matches_spec_table _ 2 (by norm_num [SchedInv])
      (by decide)⟩

lemma schedInv_step (q : ℤ) {s : SchedState} (hs : SchedInv s) :
    SchedInv (recordReviewStep q s) := by
  obtain ⟨hi, he1, he2, hd1, hd2⟩ := hs
  unfold recordReviewStep SchedInv
  split_ifs with h0 h1 h2
  · refine ⟨le_refl 1, le_max_left _ _, ?_, ?_, min_le_left _ _⟩
    · rw [max_le_iff]; constructor <;> linarith
    · rw [le_min_iff]; constructor <;> linarith
  · refine ⟨le_max_left _ _, le_max_left _ _, ?_, ?_, min_le_left _ _⟩
    · rw [max_le_iff]; constructor <;> linarith
    · rw [le_min_iff]; constructor <;> linarith
  · refine ⟨?_, he1, he2, hd1, hd2⟩
    rw [pyInt_of_nonneg (mul_ease_nonneg hi he1)]
    exact one_le_floor_mul_ease hi he1
  · refine ⟨?_, ?_, ?_, le_max_left _ _, ?_⟩
    · rw [pyInt_of_nonneg (mul_ease13_nonneg hi he1)]
      exact one_le_floor_mul_ease13 hi he1
    · rw [le_min_iff]; constructor <;> linarith
    · rw [min_le_iff]; left; linarith
    · rw [max_le_iff]; constructor <;> linarith

/-- C4: the bounds ease_factor ∈ [1.3, 2.8], difficulty ∈ [0.1, 0.9]
and interval ≥ 1 are invariants of `record_review` under every
sequence of quality ratings from {0,1,2,3}. -/
theorem schedInv_preserved_by_sequences (s : SchedState) (qs : List ℤ)
    (hs : SchedInv s)
    (hqs : ∀ q ∈ qs, q = 0 ∨ q = 1 ∨ q = 2 ∨ q = 3) :
    SchedInv (recordReviewSeq qs s) := by
  induction qs generalizing s with
  | nil => exact hs
  | cons q rest ih =>
      have hstep : SchedInv (recordReviewStep q s) := schedInv_step q hs
      have : recordReviewSeq (q :: rest) s =
          recordReviewSeq rest (recordReviewStep q s) := rfl
      rw [this]
      exact ih _ hstep (fun x hx => hqs x (List.mem_cons_of_mem _ hx))

theorem schedInv_preserved_by_sequences_witness :
    SchedInv ⟨1, 5/2, 0, 3/10⟩ ∧
      (∀ q ∈ ([3, 0, 1, 2, 3, 3] : List ℤ),
        q = 0 ∨ q = 1 ∨ q = 2 ∨ q = 3) ∧
      SchedInv (recordReviewSeq [3, 0, 1, 2, 3, 3] ⟨1, 5/2, 0, 3/10⟩) :=
  ⟨by norm_num [SchedInv], by decide,
    schedInv_preserved_by_sequences _ _ (by norm_num [SchedInv])
      (by decide)⟩

/-- C8: for a fixed in-bounds starting state the new interval is
monotone in quality: quality 0 gives 1 day, and each higher quality
gives an interval at least as large as the one below it. -/
theorem record_review_interval_monotone (s : SchedState)
    (hi : 1 ≤ s.interval) (he1 : 13/10 ≤ s.ease_factor)
    (he2 : s.ease_factor ≤ 28/10) :
    (recordReviewStep 0 s).interval = 1 ∧
    (recordReviewStep 0 s).interval ≤ (recordReviewStep 1 s).interval ∧
    (recordReviewStep 1 s).interval ≤ (recordReviewStep 2 s).interval ∧
    (recordReviewStep 2 s).interval ≤ (recordReviewStep 3 s).interval := by
  have hi' : (1 : ℚ) ≤ (s.interval : ℚ) := by exact_mod_cast hi
  have e0 : (recordReviewStep 0 s).interval = 1 := rfl
  have e1 : (recordReviewStep 1 s).interval =
      max 1 (pyInt ((s.interval : ℚ) * (6/10))) := rfl
  have e2 : (recordReviewStep 2 s).interval =
      pyInt ((s.interval : ℚ) * s.ease_factor) := rfl
  have e3 : (recordReviewStep 3 s).interval =
      pyInt ((s.interval : ℚ) * s.ease_factor * (13/10)) := rfl
  rw [e0, e1, e2, e3, pyInt_of_nonneg (mul_six_tenths_nonneg hi),
    pyInt_of_nonneg (mul_ease_nonneg hi he1),
    pyInt_of_nonneg (mul_ease13_nonneg hi he1)]
  refine ⟨rfl, le_max_left _ _, ?_, ?_⟩
  · rw [max_le_iff]
    refine ⟨one_le_floor_mul_ease hi he1, Int.floor_le_floor ?_⟩
    nlinarith
  · apply Int.floor_le_floor
    nlinarith [mul_ease_nonneg hi he1]

theorem record_review_interval_monotone_witness :
    (1 ≤ (4 : ℤ) ∧ (13/10 : ℚ) ≤ 2 ∧ (2 : ℚ) ≤ 28/10) ∧
      ((recordReviewStep 0 ⟨4, 2, 5, 1/2⟩).interval = 1 ∧
        (recordReviewStep 0 ⟨4, 2, 5, 1/2⟩).interval ≤
          (recordReviewStep 1 ⟨4, 2, 5, 1/2⟩).interval ∧
        (recordReviewStep 1 ⟨4, 2, 5, 1/2⟩).interval ≤
          (recordReviewStep 2 ⟨4, 2, 5, 1/2⟩).interval ∧
        (recordReviewStep 2 ⟨4, 2, 5, 1/2⟩).interval ≤
          (recordReviewStep 3 ⟨4, 2, 5, 1/2⟩).interval) :=
  ⟨⟨by decide, by norm_num, by norm_num⟩,
    record_review_interval_monotone ⟨4, 2, 5, 1/2⟩ (by decide) (by norm_num)
      (by norm_num)⟩

/-- C9: a quality outside {0,1,2} (for example 4, 7 or −1) falls into
the `else` branch and is indistinguishable from quality 3 ("easy"):
same interval, ease and difficulty updates, review_count incremented,
no error raised (the transition is total). -/
theorem record_review_out_of_range_quality (s : SchedState) (q : ℤ)
    (h0 : q ≠ 0) (h1 : q ≠ 1) (h2 : q ≠ 2)
    (hi : 1 ≤ s.interval) (he : 13/10 ≤ s.ease_factor) :
    recordReviewStep q s = recordReviewStep 3 s ∧
      recordReviewStep q s = specTransition 3 s := by
  have hq : recordReviewStep q s = recordReviewStep 3 s := by
    simp [recordReviewStep, h0, h1, h2]
  refine ⟨hq, ?_⟩
  rw [hq]
  simp [recordReviewStep, specTransition,
    pyInt_of_nonneg (mul_ease13_nonneg hi he)]

theorem record_review_out_of_range_quality_witness :
    ((4 : ℤ) ≠ 0 ∧ (4 : ℤ) ≠ 1 ∧ (4 : ℤ) ≠ 2 ∧
        1 ≤ (2 : ℤ) ∧ (13/10 : ℚ) ≤ 5/2) ∧
      (recordReviewStep 4 ⟨2, 5/2, 7, 1/2⟩ =
          recordReviewStep 3 ⟨2, 5/2, 7, 1/2⟩ ∧
        recordReviewStep 4 ⟨2, 5/2, 7, 1/2⟩ =
          specTransition 3 ⟨2, 5/2, 7, 1/2⟩) :=
  ⟨⟨by decide, by decide, by decide, by decide, by norm_num⟩,
    record_review_out_of_range_quality ⟨2, 5/2, 7, 1/2⟩ 4 (by decide)
      (by decide) (by decide) (by decide) (by norm_num)⟩

end SchedulerProofs

section MasteryProofs

/-- C3: `update_mastery_score` returns exactly the exponentially
weighted moving average `(1 − learning_rate)·current +
learning_rate·observation`; for inputs in [0,1] and learning_rate in
(0,1] the result stays in [0,1], and at learning_rate = 1 the update
returns the observation exactly. -/
theorem update_mastery_formula_and_bounds
    (current observation learning_rate : ℚ)
    (hc0 : 0 ≤ current) (hc1 : current ≤ 1)
    (ho0 : 0 ≤ observation) (ho1 : observation ≤ 1)
    (hl0 : 0 < learning_rate) (hl1 : learning_rate ≤ 1) :
    (update_mastery_score current observation learning_rate).2 =
        (1 - learning_rate) * current + learning_rate * observation ∧
      0 ≤ (update_mastery_score current observation learning_rate).2 ∧
      (update_mastery_score current observation learning_rate).2 ≤ 1 ∧
      (update_mastery_score current observation 1).2 = observation := by
  refine ⟨rfl, ?_, ?_, ?_⟩
  · show 0 ≤ (1 - learning_rate) * current + learning_rate * observation
    nlinarith
  · show (1 - learning_rate) * current + learning_rate * observation ≤ 1
    nlinarith
  · show (1 - 1) * current + 1 * observation = observation
    ring

theorem update_mastery_formula_and_bounds_witness :
    ((0 : ℚ) ≤ 1/2 ∧ (1/2 : ℚ) ≤ 1 ∧ (0 : ℚ) ≤ 1 ∧ (1 : ℚ) ≤ 1 ∧
        (0 : ℚ) < 1/10 ∧ (1/10 : ℚ) ≤ 1) ∧
      ((update_mastery_score (1/2) 1 (1/10)).2 =
          (1 - 1/10) * (1/2) + (1/10) * 1 ∧
        0 ≤ (update_mastery_score (1/2) 1 (1/10)).2 ∧
        (update_mastery_score (1/2) 1 (1/10)).2 ≤ 1 ∧
        (update_mastery_score (1/2) 1 1).2 = 1) :=
  ⟨⟨by norm_num, by norm_num, by norm_num, by norm_num, by norm_num,
      by norm_num⟩,
    update_mastery_formula_and_bounds (1/2) 1 (1/10) (by norm_num)
      (by norm_num) (by norm_num) (by norm_num) (by norm_num)
      (by norm_num)⟩

end MasteryProofs

section StoreProofs

lemma lookup_setKoncept_self (cid : String) (c' : Koncept)
    (db : List (String × Koncept)) (h : (List.lookup cid db).isSome) :
    List.lookup cid (setKoncept cid c' db) = some c' := by
  induction db with
  | nil => simp [List.lookup] at h
  | cons p rest ih =>
      obtain ⟨k, v⟩ := p
      by_cases hk : k = cid
      · subst hk
        simp [setKoncept, List.lookup]
      · have hk' : (cid == k) = false := by
          simp [beq_iff_eq]
          exact fun he => hk he.symm
        simp only [setKoncept, if_neg hk, List.lookup, hk'] at h ⊢
        exact ih h

/-- C10: calling `record_review` with an unknown concept id is a
complete no-op: the lookup returns no record, the method returns
before any write, and the store is unchanged. -/
theorem record_review_unknown_id_noop (now : ℚ) (ffp : Option ℝ)
    (db : List (String × Koncept)) (cid : String) (q : ℤ)
    (h : List.lookup cid db = none) :
    recordReviewDb now ffp db cid q = db := by
  unfold recordReviewDb
  rw [h]

theorem record_review_unknown_id_noop_witness :
    List.lookup "missing" ([] : List (String × Koncept)) = none ∧
      recordReviewDb 0 none [] "missing" 2 = [] :=
  ⟨rfl, record_review_unknown_id_noop 0 none [] "missing" 2 rfl⟩

/-- C6: immediately after every recorded review the stored record has
`last_review = now` and `next_review = now + interval'` days, where
`interval'` is the post-transition interval. -/
theorem next_review_equals_last_review_plus_interval (now : ℚ)
    (ffp : Option ℝ) (db : List (String × Koncept)) (cid : String)
    (q : ℤ) (c : Koncept) (h : List.lookup cid db = some c) :
    List.lookup cid (recordReviewDb now ffp db cid q) =
        some (reviewedKoncept now (ffp.getD (3/10)) q c) ∧
      (reviewedKoncept now (ffp.getD (3/10)) q c).last_review =
        some now ∧
      (reviewedKoncept now (ffp.getD (3/10)) q c).next_review =
        some (now +
          ((recordReviewStep q (coalesceState c)).interval : ℚ)) := by
  refine ⟨?_, rfl, rfl⟩
  unfold recordReviewDb
  rw [h]
  exact lookup_setKoncept_self cid _ db (by rw [h]; rfl)

/-- The empty concept record: every nullable field absent. -/
def emptyKoncept : Koncept :=
  ⟨none, none, none, none, none, none, none, none⟩

theorem next_review_equals_last_review_plus_interval_witness :
    List.lookup "a" [("a", emptyKoncept)] = some emptyKoncept ∧
      (List.lookup "a" (recordReviewDb 0 none [("a", emptyKoncept)] "a" 2) =
          some (reviewedKoncept 0 ((none : Option ℝ).getD (3/10)) 2
            emptyKoncept) ∧
        (reviewedKoncept 0 ((none : Option ℝ).getD (3/10)) 2
            emptyKoncept).last_review = some 0 ∧
        (reviewedKoncept 0 ((none : Option ℝ).getD (3/10)) 2
            emptyKoncept).next_review =
          some (0 +
            ((recordReviewStep 2 (coalesceState emptyKoncept)).interval :
              ℚ))) :=
  ⟨rfl, next_review_equals_last_review_plus_interval 0 none _ "a" 2
    emptyKoncept rfl⟩

/-- C7: after every recorded review the stored retention equals
`exp(−forgetting_factor × interval')` for the newly computed interval,
with the profile's forgetting_factor defaulting to 0.3 when absent. -/
theorem retention_after_review (now : ℚ) (ffp : Option ℝ)
    (db : List (String × Koncept)) (cid : String) (q : ℤ) (c : Koncept)
    (h : List.lookup cid db = some c) :
    List.lookup cid (recordReviewDb now ffp db cid q) =
        some (reviewedKoncept now (ffp.getD (3/10)) q c) ∧
      (reviewedKoncept now (ffp.getD (3/10)) q c).retention =
        some (Real.exp (-(ffp.getD (3/10) *
          ((recordReviewStep q (coalesceState c)).interval : ℝ)))) := by
  refine ⟨?_, rfl⟩
  unfold recordReviewDb
  rw [h]
  exact lookup_setKoncept_self cid _ db (by rw [h]; rfl)

theorem retention_after_review_witness :
    List.lookup "a" [("a", emptyKoncept)] = some emptyKoncept ∧
      (List.lookup "a" (recordReviewDb 0 none [("a", emptyKoncept)] "a" 3) =
          some (reviewedKoncept 0 ((none : Option ℝ).getD (3/10)) 3
            emptyKoncept) ∧
        (reviewedKoncept 0 ((none : Option ℝ).getD (3/10)) 3
            emptyKoncept).retention =
          some (Real.exp (-((none : Option ℝ).getD (3/10) *
            ((recordReviewStep 3 (coalesceState emptyKoncept)).interval :
              ℝ))))) :=
  ⟨rfl, retention_after_review 0 none _ "a" 3 emptyKoncept rfl⟩

end StoreProofs

section ScorerProofs

lemma confusion_sum_of_pos {l : List ℕ} (h : ∀ n ∈ l, 1 ≤ n) :
    (l.map (fun (n : ℕ) => (if n = 0 then 1 else (n : ℝ)) * (1/10))).sum =
      (1/10) * ((l.map (fun (n : ℕ) => (n : ℝ))).sum) := by
  induction l with
  | nil => simp
  | cons n rest ih =>
      have hn : n ≠ 0 := by
        have := h n (List.mem_cons_self n rest)
        omega
      have hrest : ∀ m ∈ rest, 1 ≤ m :=
        fun m hm => h m (List.mem_cons_of_mem _ hm)
      simp only [List.map_cons, List.sum_cons, if_neg hn, ih hrest]
      ring

lemma failure_risk_as_max (sp : ℝ) :
    (if sp < 6/10 then (6/10 - sp) * 2 else 0) =
      max 0 ((6/10 - sp) * 2) := by
  split_ifs with h
  · exact (max_eq_right (by nlinarith)).symm
  · exact (max_eq_left (by nlinarith)).symm

/-- C2 (amended): the code's total score equals the spec's 10-step
formula with `days_since_review` the exact fractional elapsed days
(`total_seconds()/86400`), not the whole-days `.days` value, and the
breakdown reports exactly those component values. -/
theorem concept_score_matches_formula (c : ConceptData)
    (hm0 : 0 ≤ c.mastery_score) (hm1 : c.mastery_score ≤ 1)
    (hr : 0 < c.retention)
    (hd0 : 1/10 ≤ c.difficulty) (hd1 : c.difficulty ≤ 9/10)
    (hcc : ∀ n ∈ c.confusion_counts, 1 ≤ n) :
    (calculate_concept_score c).1 = specTotalScoreFracDays c ∧
      (calculate_concept_score c).2.total_score =
        (calculate_concept_score c).1 ∧
      (calculate_concept_score c).2.current_retention =
        c.retention *
          Real.exp (-(c.elapsed_days.getD 30 / (c.retention * 10))) ∧
      (calculate_concept_score c).2.recall_improvement =
        max 0 (9/10 - (calculate_concept_score c).2.current_retention) ∧
      (calculate_concept_score c).2.training_effect =
        (1/10) * ((c.confusion_counts.map (fun (n : ℕ) => (n : ℝ))).sum) ∧
      (calculate_concept_score c).2.success_probability =
        c.mastery_score * (1 - c.difficulty) + 3/10 ∧
      (calculate_concept_score c).2.failure_risk =
        max 0 ((6/10 -
          (calculate_concept_score c).2.success_probability) * 2) ∧
      (calculate_concept_score c).2.estimated_time =
        5 + c.difficulty * 10 := by
  refine ⟨?_, rfl, rfl, rfl, ?_, rfl, ?_, rfl⟩
  · simp only [calculate_concept_score, specTotalScoreFracDays,
      confusion_sum_of_pos hcc, failure_risk_as_max]
    ring
  · simp only [calculate_concept_score, confusion_sum_of_pos hcc]
  · simp only [calculate_concept_score, failure_risk_as_max]

/-- A concrete scorer input for the witness: mastery 1/2, stability 1,
difficulty 0.3, reviewed 2 days ago, confused twice and three times
with neighbours, one dependent concept. -/
noncomputable def scoredConcept : ConceptData :=
  { mastery_score := 1/2
    retention := 1
    difficulty := 3/10
    elapsed_days := some 2
    confusion_counts := [2, 3]
    dependencies := ["x"] }

theorem concept_score_matches_formula_witness :
    (0 ≤ scoredConcept.mastery_score ∧ scoredConcept.mastery_score ≤ 1 ∧
        0 < scoredConcept.retention ∧ 1/10 ≤ scoredConcept.difficulty ∧
        scoredConcept.difficulty ≤ 9/10 ∧
        ∀ n ∈ scoredConcept.confusion_counts, 1 ≤ n) ∧
      (calculate_concept_score scoredConcept).1 =
        specTotalScoreFracDays scoredConcept :=
  ⟨⟨by norm_num [scoredConcept], by norm_num [scoredConcept],
      by norm_num [scoredConcept], by norm_num [scoredConcept],
      by norm_num [scoredConcept], by norm_num [scoredConcept]⟩,
    (concept_score_matches_formula scoredConcept
      (by norm_num [scoredConcept]) (by norm_num [scoredConcept])
      (by norm_num [scoredConcept]) (by norm_num [scoredConcept])
      (by norm_num [scoredConcept]) (by norm_num [scoredConcept])).1⟩

/-- The scorer input refuting the whole-days (`.days`) reading: never
confused, no dependents, stability 1, reviewed 15.5 fractional days
ago (`.days` would truncate this to 15). -/
noncomputable def c2cx : ConceptData :=
  { mastery_score := 0
    retention := 1
    difficulty := 3/10
    elapsed_days := some (31/2)
    confusion_counts := []
    dependencies := [] }

/-- C2 counterexample: the code's score uses the exact fractional
elapsed days (`total_seconds()/86400`); at 15.5 elapsed days it
differs from the spec's `days_since_review = (now − last_review).days`
formula, which would use 15. -/
theorem concept_score_whole_days_refuted :
    (calculate_concept_score c2cx).1 ≠ specTotalScoreWholeDays c2cx := by
  have hcode : (calculate_concept_score c2cx).1 =
      (max 0 (9/10 - Real.exp (-(31/20) : ℝ)) - 3/5) / (8/60) := by
    simp only [calculate_concept_score, c2cx, Option.getD_some,
      List.map_nil, List.sum_nil, List.length_nil]
    norm_num
  have hspec : specTotalScoreWholeDays c2cx =
      (max 0 (9/10 - Real.exp (-(3/2) : ℝ)) - 3/5) / (8/60) := by
    simp only [specTotalScoreWholeDays, c2cx, List.map_nil, List.sum_nil,
      List.length_nil]
    norm_num
  have hB : Real.exp (-(3/2) : ℝ) < 2/5 := by
    have h1 : (5/2 : ℝ) < Real.exp (3/2) := by
      have := Real.add_one_lt_exp (x := (3/2 : ℝ)) (by norm_num)
      linarith
    rw [Real.exp_neg, show (2/5 : ℝ) = (5/2 : ℝ)⁻¹ by norm_num]
    exact inv_strictAnti₀ (by norm_num) h1
  have hA : Real.exp (-(31/20) : ℝ) < Real.exp (-(3/2)) :=
    Real.exp_lt_exp.mpr (by norm_num)
  rw [hcode, hspec,
    max_eq_right (a := (0 : ℝ)) (by linarith),
    max_eq_right (a := (0 : ℝ)) (by linarith)]
  intro h
  have h' : (9/10 - Real.exp (-(31/20) : ℝ) - 3/5) =
      (9/10 - Real.exp (-(3/2) : ℝ) - 3/5) := by
    field_simp at h
    linarith
  have : Real.exp (-(31/20) : ℝ) = Real.exp (-(3/2)) := by linarith
  exact absurd this (ne_of_lt hA)

lemma selectBest_mem (l : List ConceptData) :
    ∀ b s, selectBest b s l = b ∨ selectBest b s l ∈ l := by
  induction l with
  | nil => intro b s; left; rfl
  | cons c rest ih =>
      intro b s
      unfold selectBest
      split_ifs with h
      · rcases ih c (calculate_concept_score c).1 with h' | h'
        · right; rw [h']; exact List.mem_cons_self _ _
        · right; exact List.mem_cons_of_mem _ h'
      · rcases ih b s with h' | h'
        · left; exact h'
        · right; exact List.mem_cons_of_mem _ h'

lemma selectBest_maximal (l : List ConceptData) :
    ∀ b, (calculate_concept_score b).1 ≤
        (calculate_concept_score
          (selectBest b (calculate_concept_score b).1 l)).1 ∧
      ∀ x ∈ l, (calculate_concept_score x).1 ≤
        (calculate_concept_score
          (selectBest b (calculate_concept_score b).1 l)).1 := by
  induction l with
  | nil => intro b; exact ⟨le_refl _, by simp⟩
  | cons c rest ih =>
      intro b
      unfold selectBest
      split_ifs with h
      · obtain ⟨h1, h2⟩ := ih c
        refine ⟨le_trans (le_of_lt h) h1, ?_⟩
        intro x hx
        rcases List.mem_cons.mp hx with rfl | hx'
        · exact h1
        · exact h2 x hx'
      · obtain ⟨h1, h2⟩ := ih b
        refine ⟨h1, ?_⟩
        intro x hx
        rcases List.mem_cons.mp hx with rfl | hx'
        · exact le_trans (not_lt.mp h) h1
        · exact h2 x hx'

/-- C5 (amended): `find_optimal_concept` applies no mastery filter.
It returns `none` exactly when the fetched list is empty, and
otherwise returns a member of the list whose score is maximal —
regardless of mastery_score. -/
theorem find_optimal_concept_argmax_all (cs : List ConceptData) :
    (find_optimal_concept cs = none ↔ cs = []) ∧
      ∀ c, find_optimal_concept cs = some c →
        c ∈ cs ∧ ∀ x ∈ cs,
          (calculate_concept_score x).1 ≤ (calculate_concept_score c).1 := by
  cases cs with
  | nil =>
      exact ⟨by simp [find_optimal_concept], by simp [find_optimal_concept]⟩
  | cons c rest =>
      constructor
      · simp [find_optimal_concept]
      · intro r hr
        have hr' : selectBest c (calculate_concept_score c).1 rest = r := by
          simpa [find_optimal_concept] using hr
        subst hr'
        constructor
        · rcases selectBest_mem rest c (calculate_concept_score c).1 with
            h | h
          · rw [h]; exact List.mem_cons_self _ _
          · exact List.mem_cons_of_mem _ h
        · intro x hx
          obtain ⟨h1, h2⟩ := selectBest_maximal rest c
          rcases List.mem_cons.mp hx with rfl | hx'
          · exact h1
          · exact h2 x hx'

/-- A concept whose mastery_score is exactly the "mastered" boundary
0.7. -/
noncomputable def masteredConcept : ConceptData :=
  { mastery_score := 7/10
    retention := 1
    difficulty := 3/10
    elapsed_days := none
    confusion_counts := []
    dependencies := [] }

/-- C5 counterexample: a store holding a single concept whose
mastery_score is exactly 0.7 — so every concept is "mastered" — still
yields that concept from `find_optimal_concept`, not an empty
result. -/
theorem find_optimal_selects_mastered :
    masteredConcept.mastery_score = 7/10 ∧
      find_optimal_concept [masteredConcept] = some masteredConcept ∧
      find_optimal_concept [masteredConcept] ≠ none := by
  refine ⟨rfl, rfl, ?_⟩
  rw [show find_optimal_concept [masteredConcept] =
    some masteredConcept from rfl]
  simp

theorem find_optimal_concept_argmax_all_witness :
    masteredConcept ∈ [masteredConcept] ∧
      ∀ x ∈ [masteredConcept],
        (calculate_concept_score x).1 ≤
          (calculate_concept_score masteredConcept).1 :=
  (find_optimal_concept_argmax_all [masteredConcept]).2 masteredConcept rfl

end ScorerProofs

end StudyBuddy
